import Mathlib

/-!
# Verification of `DeltaTransformer` (metro-bundler DeltaBundler)

A shallow embedding of `src/packages/metro-bundler/src/DeltaBundler/DeltaTransformer.js`.

Two layers are modelled:

* the pure data-processing core of one delta computation (`_getDelta`,
  `_transformModules`, `_transformModule`, `_getMetadata`, `_getPrepend`,
  `_getAppend`, `_getInverseDependencies`): asynchronous fallible steps become
  `Except` computations, JavaScript `Map`s become insertion-ordered association
  lists with overwrite-in-place `set` semantics, and the external collaborators
  (bundler, resolver, dependency graph, modules) become an explicit environment
  of functions;

* the promise-serialization logic of `getDelta` (source lines 127–146): a
  deterministic small-step model of the JavaScript event loop in which each
  `getDelta` call is a coroutine suspended at its `await` points, builds
  (`_getDelta()` promises) settle through external events, and the reactions
  registered on a settling promise run in registration order, exactly as
  JavaScript microtasks do.
-/

namespace Metro

/-! ## Association lists with JavaScript `Map` semantics

`new Map()` iterates in insertion order; `set` on an existing key overwrites
the value in place (keeping the key's original position) and otherwise appends.
JavaScript plain objects used as dictionaries get the same overwrite semantics
for our purposes (`_getInverseDependencies` only ever adds fresh keys when the
id allocator is injective on the input paths).
-/

/-- `Map.prototype.get` / object indexing: first binding of the key, if any. -/
def lookupA {κ α : Type} [DecidableEq κ] : List (κ × α) → κ → Option α
  | [], _ => none
  | (k', v) :: rest, k => if k' = k then some v else lookupA rest k

/-- `Map.prototype.set` / object assignment: overwrite in place, else append. -/
def setA {κ α : Type} [DecidableEq κ] : List (κ × α) → κ → α → List (κ × α)
  | [], k, v => [(k, v)]
  | (k', v') :: rest, k, v =>
    if k' = k then (k, v) :: rest else (k', v') :: setA rest k v

/-- `new Map(pairs)`: the empty map with each pair `set` in order. -/
def mkMap {κ α : Type} [DecidableEq κ] (l : List (κ × α)) : List (κ × α) :=
  l.foldl (fun acc p => setA acc p.1 p.2) []

/-! ## Data model (source lines 19–48)

`RawMapping` records are opaque to the delta transformer; only their container
shape matters (`Array.isArray`).  A transform/wrap step's `map` output is either
our raw-mapping array or some other shape (e.g. a string-encoded standard
source map coming from the minifier), which we keep abstract as a string.
-/

abbrev RawMapping := Nat

/-- A `map` value as produced by the transform / wrap step: either the delta
bundler's own `Array<RawMapping>` or some other (non-array) source-map shape. -/
inductive JsMap : Type
  | arr (l : List RawMapping)
  | std (s : String)
deriving DecidableEq, Repr

/-- `DeltaEntry` (source lines 27–33). -/
structure DeltaEntry : Type where
  code : String
  map : Option (List RawMapping)
  name : String
  path : String
  source : String
deriving DecidableEq, Repr

/-- `DeltaEntries = Map<number, ?DeltaEntry>` (source line 35); `none` values
are tombstones for deleted modules. -/
abbrev DeltaEntries := List (Nat × Option DeltaEntry)

/-- The result of `module.read(...)` / `_getMetadata` (source lines 366–374). -/
structure Metadata : Type where
  code : String
  dependencyOffsets : Option (List Nat)
  map : Option JsMap
  source : String
deriving DecidableEq, Repr

deriving instance DecidableEq for Except

/-- An external `Module` (node-haste), with the outcomes of its asynchronous
accessors (`getName`, `read`) recorded as data; `read` may reject, which we
model as `Except` with a numeric error code. -/
structure Module : Type where
  path : String
  name : String
  isAsset : Bool
  readResult : Except Nat Metadata
deriving DecidableEq, Repr

/-- `generateAssetObjAndCode`'s relevant output: `asset.code` and
`asset.meta.dependencyOffsets`. -/
structure AssetData : Type where
  code : String
  dependencyOffsets : Option (List Nat)
deriving DecidableEq, Repr

/-- `resolver.wrapModule`'s output `{code, map}` (source lines 325–336). -/
structure WrapResult : Type where
  code : String
  map : Option JsMap
deriving DecidableEq, Repr

/-- `dependencyPairs`: `Map<string, Array<[string, Module]>>`. -/
abbrev DepPairs := List (String × List (String × Module))

/-- The external collaborators (bundler / resolver / dependency graph),
flattened into one environment of pure functions.  `wrapModule` and
`generateAssetObjAndCode` are awaited in the source and may reject, so they
return `Except`; `resolveRequires` is synchronous in the source.  Functions of
the session-fixed transformer options have those options pre-applied. -/
structure Env : Type where
  getModuleId : String → Nat
  wrapModule : Module → String → String → Option JsMap →
    List (String × Module) → List Nat → Bool → Bool → Except Nat WrapResult
  resolveRequires : Module → String → List (String × Module) → List Nat → String
  generateAssetObjAndCode : Module → Except Nat AssetData
  getModuleSystemDependencies : Bool → List Module
  createPolyfill : String → Module
  getAbsolutePath : String → String
  getModuleForPath : String → Module

/-- `BundleOptions` fields the delta transformer reads. -/
structure BundleOptions : Type where
  wrapModules : Bool
  minify : Bool
  dev : Bool
  platform : String
  entryFile : String
  runBeforeMainModule : List String
  assetPlugins : List String
deriving Repr

/-- Constructor `Options` (source lines 45–48): `getPolyfills` and
`polyfillModuleNames`. -/
structure Config : Type where
  getPolyfills : String → List String
  polyfillModuleNames : List String

/-- The delta the `DeltaCalculator` hands back (`modified` as
`Array.from(modified.values())`, `deleted` iterated with `forEach`). -/
structure CalculatorDelta : Type where
  modified : List Module
  deleted : List String
  reset : Bool

/-- `DeltaTransformResponse` (source lines 37–43).  `inverseDependencies` is a
JavaScript object, so its keys are the decimal string encodings of module ids. -/
structure DeltaTransformResponse : Type where
  pre : DeltaEntries
  post : DeltaEntries
  delta : DeltaEntries
  inverseDependencies : List (String × List Nat)
  reset : Bool
deriving DecidableEq, Repr

/-! ## The module transform pipeline (source lines 292–391) -/

/-- `_getMetadata` (source lines 366–391): asset modules go through the asset
code generator (`map` forced to `undefined`, `source` to `""`); ordinary
modules are `module.read(transformOptions)`. -/
def getMetadata (env : Env) (m : Module) : Except Nat Metadata :=
  if m.isAsset then
    match env.generateAssetObjAndCode m with
    | .error e => .error e
    | .ok asset =>
      .ok { code := asset.code
            dependencyOffsets := asset.dependencyOffsets
            map := none
            source := "" }
  else
    m.readResult

/-- The wrapping decision of `_transformModule` (source lines 325–346): wrap
into a loader shim when `wrapModules` is set, otherwise resolve the `require`
calls in place and keep the metadata's map. -/
def wrapStep (env : Env) (opts : BundleOptions) (m : Module) (name : String)
    (metadata : Metadata) (dependencyPairsForModule : List (String × Module)) :
    Except Nat WrapResult :=
  if opts.wrapModules then
    env.wrapModule m name metadata.code metadata.map dependencyPairsForModule
      (metadata.dependencyOffsets.getD []) opts.minify opts.dev
  else
    .ok { code := env.resolveRequires m metadata.code dependencyPairsForModule
            (metadata.dependencyOffsets.getD [])
          map := metadata.map }

/-- Source lines 348–352: `Array.isArray(wrapped.map) ? wrapped.map : undefined`. -/
def rawMapFilter : Option JsMap → Option (List RawMapping)
  | some (.arr l) => some l
  | _ => none

/-- `_transformModule` (source lines 312–364). -/
def transformModule (env : Env) (opts : BundleOptions) (dependencyPairs : DepPairs)
    (m : Module) : Except Nat (Nat × Option DeltaEntry) :=
  match getMetadata env m with
  | .error e => .error e
  | .ok metadata =>
    let dependencyPairsForModule := (lookupA dependencyPairs m.path).getD []
    match wrapStep env opts m m.name metadata dependencyPairsForModule with
    | .error e => .error e
    | .ok wrapped =>
      .ok (env.getModuleId m.path,
        some { code := wrapped.code
               map := rawMapFilter wrapped.map
               name := m.name
               source := metadata.source
               path := m.path })

/-- `Promise.all` over a list of fallible computations: all-or-nothing join. -/
def allE {α : Type} (f : Module → Except Nat α) : List Module → Except Nat (List α)
  | [] => .ok []
  | m :: rest =>
    match f m with
    | .error e => .error e
    | .ok r =>
      match allE f rest with
      | .error e => .error e
      | .ok rs => .ok (r :: rs)

/-- `_transformModules` (source lines 292–310):
`new Map(await Promise.all(modules.map(_transformModule)))`. -/
def transformModules (env : Env) (opts : BundleOptions) (dependencyPairs : DepPairs)
    (modules : List Module) : Except Nat DeltaEntries :=
  match allE (transformModule env opts dependencyPairs) modules with
  | .error e => .error e
  | .ok l => .ok (mkMap l)

/-! ## Preamble, postamble, inverse dependencies (source lines 197–290) -/

/-- The module list `_getPrepend` transforms (source lines 203–223): module
system dependencies selected by the `dev` flag, then one synthetic polyfill per
name in `getPolyfills({platform}).concat(polyfillModuleNames)`, each built by
the dependency graph's `createPolyfill`. -/
def prependModules (env : Env) (cfg : Config) (opts : BundleOptions) : List Module :=
  let polyfillModuleNames := cfg.getPolyfills opts.platform ++ cfg.polyfillModuleNames
  let moduleSystemDeps := env.getModuleSystemDependencies opts.dev
  moduleSystemDeps ++ polyfillModuleNames.map (fun n => env.createPolyfill n)

/-- `_getPrepend` (source lines 197–231). -/
def getPrepend (env : Env) (cfg : Config) (opts : BundleOptions)
    (dependencyPairs : DepPairs) : Except Nat DeltaEntries :=
  transformModules env opts dependencyPairs (prependModules env cfg opts)

/-- The bootstrap entry `_getAppend` synthesizes per resolved module
(source lines 256–270).  Note the defensive leading semicolon in
`` `;require(${JSON.stringify(moduleId)});` ``. -/
def bootstrapEntry (moduleId : Nat) : DeltaEntry :=
  let code := ";require(" ++ toString moduleId ++ ");"
  let name := "require-" ++ toString moduleId
  { code := code
    map := none
    name := name
    source := code
    path := name ++ ".js" }

/-- `_getAppend` (source lines 233–273): the `runBeforeMainModule` names
resolved through `modulesByName` (unresolved names dropped by
`.filter(Boolean)`), then the entry-point module, each mapped to a bootstrap
`require` entry keyed by its module id. -/
def getAppend (env : Env) (opts : BundleOptions)
    (modulesByName : List (String × Module)) : DeltaEntries :=
  let absPath := env.getAbsolutePath opts.entryFile
  let entryPointModule := env.getModuleForPath absPath
  mkMap
    (((opts.runBeforeMainModule.map (fun n => lookupA modulesByName n)
        ++ [some entryPointModule]).filterMap id).map
      (fun m =>
        let moduleId := env.getModuleId m.path
        (moduleId, some (bootstrapEntry moduleId))))

/-- `_getInverseDependencies` (source lines 278–290): each path-keyed entry is
re-keyed by its module id (a JavaScript object key, hence a decimal string) and
its dependent paths are mapped to their ids in iteration order. -/
def getInverseDependencies (env : Env)
    (inverseDependencies : List (String × List String)) : List (String × List Nat) :=
  inverseDependencies.foldl
    (fun out kv =>
      setA out (toString (env.getModuleId kv.1)) (kv.2.map (fun dep => env.getModuleId dep)))
    []

/-- `_getDelta` (source lines 148–195): transform the modified modules,
tombstone the deleted paths, build `pre`/`post` only on reset, translate the
inverse dependencies, and pass `reset` through. -/
def getDeltaCore (env : Env) (cfg : Config) (opts : BundleOptions)
    (d : CalculatorDelta) (dependencyPairs : DepPairs)
    (modulesByName : List (String × Module))
    (inverseDependencies : List (String × List String)) :
    Except Nat DeltaTransformResponse :=
  match transformModules env opts dependencyPairs d.modified with
  | .error e => .error e
  | .ok modifiedDelta₀ =>
    let modifiedDelta := d.deleted.foldl
      (fun acc p => setA acc (env.getModuleId p) none) modifiedDelta₀
    match (if d.reset then getPrepend env cfg opts dependencyPairs
           else .ok ([] : DeltaEntries)) with
    | .error e => .error e
    | .ok prependSources =>
      let appendSources := if d.reset then getAppend env opts modulesByName
        else ([] : DeltaEntries)
      .ok { pre := prependSources
            post := appendSources
            delta := modifiedDelta
            inverseDependencies := getInverseDependencies env inverseDependencies
            reset := d.reset }

/-! ## The promise serialization of `getDelta` (source lines 127–146)

```js
async getDelta() {
  if (this._currentBuildPromise) {        // line 131
    await this._currentBuildPromise;      // line 132
  }
  this._currentBuildPromise = this._getDelta();   // line 135
  let result;
  try {
    result = await this._currentBuildPromise;     // line 140
  } finally {
    this._currentBuildPromise = null;             // line 142
  }
  return result;                          // line 145
}
```

Each `getDelta()` call runs synchronously from its entry to its first `await`
and is then a suspended coroutine.  A "build" is one `_getDelta()` promise; its
internal computation is opaque here (the pure part is modelled above) and it
settles only through an external `settle` event.  When a promise settles, the
reactions registered on it run to their next suspension point in registration
order — the JavaScript microtask rule.  The call that stored a build in
`_currentBuildPromise` registered on it (line 140) before any later-arriving
call could see it at line 131, so it resumes first.
-/

/-- How a build (`_getDelta()` promise) settles. -/
inductive Outcome : Type
  | resolved
  | rejected (e : Nat)
deriving DecidableEq, Repr

/-- The status of one build. -/
inductive BStatus : Type
  | pending
  | settled (o : Outcome)
deriving DecidableEq, Repr

/-- The suspension / completion points of one `getDelta()` call. -/
inductive CallPc : Type
  /-- suspended at line 132, awaiting the build that was in
  `_currentBuildPromise` when the call arrived -/
  | waitingPrev (b : Nat)
  /-- suspended at line 140, awaiting the build this call started at line 135 -/
  | awaitingOwn (b : Nat)
  /-- `getDelta()` resolved with build `b`'s result -/
  | returned (b : Nat)
  /-- `getDelta()` rejected with error `e` -/
  | threw (e : Nat)
deriving DecidableEq, Repr

/-- The orchestrator state plus the bookkeeping of calls and builds.
`token` is `this._currentBuildPromise`; `started` records which call started
which build (which call's line 135 allocated it). -/
structure LoopState : Type where
  token : Option Nat
  builds : List (Nat × BStatus)
  nextBuild : Nat
  calls : List (Nat × CallPc)
  nextCall : Nat
  started : List (Nat × Nat)
deriving DecidableEq, Repr

/-- A fresh orchestrator: no build in flight, no calls yet. -/
def initLoop : LoopState :=
  { token := none, builds := [], nextBuild := 0, calls := [], nextCall := 0,
    started := [] }

/-- Line 135 on behalf of call `c`: allocate a fresh pending `_getDelta()`
promise (its computation starts now) and store it in `_currentBuildPromise`.
Returns the new build's id. -/
def newBuild (s : LoopState) (c : Nat) : LoopState × Nat :=
  let nb := s.nextBuild
  ({ s with builds := s.builds ++ [(nb, BStatus.pending)]
            nextBuild := nb + 1
            token := some nb
            started := s.started ++ [(c, nb)] }, nb)

/-- Run one reaction: call `c` was registered on the build that just settled
with outcome `o`, and now resumes to its next suspension point.

* suspended at line 132: a rejection makes the `await` rethrow, so the whole
  `getDelta()` rejects (no `try` covers line 132); on success the call falls
  through to line 135 and starts its own build — without re-checking
  `_currentBuildPromise`.
* suspended at line 140: the `finally` (line 142) clears
  `_currentBuildPromise`, then the call returns the result or rethrows. -/
def resume (o : Outcome) (s : LoopState) (c : Nat) : LoopState :=
  match lookupA s.calls c, o with
  | some (.waitingPrev _), .rejected e =>
    { s with calls := setA s.calls c (.threw e) }
  | some (.waitingPrev _), .resolved =>
    let p := newBuild s c
    { p.1 with calls := setA p.1.calls c (.awaitingOwn p.2) }
  | some (.awaitingOwn b), .resolved =>
    { s with token := none, calls := setA s.calls c (.returned b) }
  | some (.awaitingOwn _), .rejected e =>
    { s with token := none, calls := setA s.calls c (.threw e) }
  | _, _ => s

/-- The reactions registered on build `b`, in registration order: the call
that started `b` (line 140) first, then the calls that found `b` in
`_currentBuildPromise` on arrival (line 132), in arrival order. -/
def waitersOf (s : LoopState) (b : Nat) : List Nat :=
  (s.calls.filter (fun p => p.2 = CallPc.awaitingOwn b)).map Prod.fst ++
    (s.calls.filter (fun p => p.2 = CallPc.waitingPrev b)).map Prod.fst

/-- External events: a new `getDelta()` call arrives, or an in-flight
`_getDelta()` computation settles. -/
inductive Ev : Type
  | arrive
  | settle (b : Nat) (o : Outcome)
deriving DecidableEq, Repr

/-- Process one event.

* `arrive`: the call runs its synchronous prefix.  If `_currentBuildPromise`
  holds a build it suspends at line 132 on that build; otherwise it starts its
  own build (line 135) and suspends at line 140.
* `settle b o`: build `b` completes; every reaction registered on it runs, in
  registration order, each to its next suspension point. -/
def stepEv (s : LoopState) : Ev → LoopState
  | .arrive =>
    let c := s.nextCall
    let s₁ := { s with nextCall := c + 1 }
    match s.token with
    | some b => { s₁ with calls := s₁.calls ++ [(c, CallPc.waitingPrev b)] }
    | none =>
      let p := newBuild s₁ c
      { p.1 with calls := p.1.calls ++ [(c, CallPc.awaitingOwn p.2)] }
  | .settle b o =>
    match lookupA s.builds b with
    | some .pending =>
      let s₁ := { s with builds := setA s.builds b (.settled o) }
      (waitersOf s₁ b).foldl (resume o) s₁
    | _ => s

/-- Run a sequence of external events from the fresh orchestrator. -/
def runEvents (evs : List Ev) : LoopState :=
  evs.foldl stepEv initLoop

/-- The builds whose computations are currently in flight. -/
def pendingBuilds (s : LoopState) : List Nat :=
  (s.builds.filter (fun p => p.2 = BStatus.pending)).map Prod.fst

/-- Three `getDelta()` calls, the second and third arriving while the first
call's build is still pending; then the first build resolves. -/
def raceEvents : List Ev :=
  [Ev.arrive, Ev.arrive, Ev.arrive, Ev.settle 0 Outcome.resolved]

/-! ## A spec-order variant of the preamble (for C9) -/

/-- Modelled from the spec: §4.3 orders the polyfill names "global list plus
platform-specific list, global-first then platform-specific", i.e. the
platform-independent configured `polyfillModuleNames` before the
platform-selected `getPolyfills({platform})` list.  This definition follows
those words; `prependModules` is translated from the source, which
concatenates in the opposite order. -/
def prependModulesSpecOrder (env : Env) (cfg : Config) (opts : BundleOptions) :
    List Module :=
  env.getModuleSystemDependencies opts.dev ++
    (cfg.polyfillModuleNames ++ cfg.getPolyfills opts.platform).map
      (fun n => env.createPolyfill n)

/-! ## Concrete instances used by witnesses and counterexamples -/

/-- A concrete id allocator over the paths used below. -/
def gidW : String → Nat := fun p =>
  if p = "/a.js" then 1
  else if p = "/b.js" then 2
  else if p = "/entry.js" then 3
  else if p = "/poly-g.js" then 4
  else if p = "/poly-p.js" then 5
  else 0

/-- Metadata of a module whose transform succeeded with a raw-mapping array. -/
def mdW : Metadata :=
  { code := "code-a", dependencyOffsets := none, map := some (JsMap.arr [9]),
    source := "src-a" }

/-- A script module that reads successfully. -/
def modA : Module :=
  { path := "/a.js", name := "a", isAsset := false, readResult := .ok mdW }

/-- A script module whose read/transform rejects with error 42. -/
def modBad : Module :=
  { path := "/b.js", name := "b", isAsset := false, readResult := .error 42 }

/-- A concrete environment: identity-ish collaborators over `gidW`. -/
def envW : Env :=
  { getModuleId := gidW
    wrapModule := fun _ _ code map _ _ _ _ => .ok { code := code, map := map }
    resolveRequires := fun _ code _ _ => code
    generateAssetObjAndCode := fun m =>
      .ok { code := "asset-" ++ m.name, dependencyOffsets := none }
    getModuleSystemDependencies := fun _ => []
    createPolyfill := fun n =>
      { path := n, name := n, isAsset := false
        readResult := .ok { code := "poly", dependencyOffsets := none,
                            map := none, source := "" } }
    getAbsolutePath := fun p => p
    getModuleForPath := fun p =>
      { path := p, name := "entry", isAsset := false, readResult := .ok mdW } }

/-- Bundle options with wrapping off and no `runBeforeMainModule` names. -/
def optsW : BundleOptions :=
  { wrapModules := false, minify := false, dev := true, platform := "ios",
    entryFile := "/entry.js", runBeforeMainModule := [], assetPlugins := [] }

/-- A configuration with no polyfills. -/
def cfgW : Config :=
  { getPolyfills := fun _ => [], polyfillModuleNames := [] }

/-- A diff in which `/a.js` is both modified and deleted. -/
def d3 : CalculatorDelta :=
  { modified := [modA], deleted := ["/a.js"], reset := false }

/-- The response `getDeltaCore` produces for `d3`: the entry transformed for
`/a.js` is overwritten by the tombstone. -/
def resp3 : DeltaTransformResponse :=
  { pre := [], post := [], delta := [(1, none)], inverseDependencies := [],
    reset := false }

/-- A reset diff with an empty modified set. -/
def d5 : CalculatorDelta := { modified := [], deleted := [], reset := true }

/-- The response for `d5`: fresh (here empty) preamble, a postamble with just
the entry-point bootstrap `require`, and `reset` passed through. -/
def resp5 : DeltaTransformResponse :=
  { pre := [], post := [(3, some (bootstrapEntry 3))], delta := [],
    inverseDependencies := [], reset := true }

/-- A diff whose only modified module fails to read. -/
def d7 : CalculatorDelta :=
  { modified := [modBad], deleted := [], reset := false }

/-- An environment whose wrap step yields a string-encoded standard source
map, as uglifyJS does when minification is on. -/
def env4 : Env :=
  { envW with
    wrapModule := fun _ _ code _ _ _ _ _ =>
      .ok { code := code, map := some (JsMap.std "standard-source-map") } }

/-- Options with module wrapping enabled. -/
def opts4 : BundleOptions := { optsW with wrapModules := true }

/-- The entry `_transformModule` produces for `modA` under `env4`: the
incompatible map has been coerced to "no map". -/
def entry4 : DeltaEntry :=
  { code := "code-a", map := none, name := "a", source := "src-a",
    path := "/a.js" }

/-- One platform-selected polyfill and one configured polyfill name. -/
def cfg9 : Config :=
  { getPolyfills := fun _ => ["/poly-p.js"], polyfillModuleNames := ["/poly-g.js"] }

/-- The entry the pipeline produces for a synthetic polyfill at `path`. -/
def polyEntry (p : String) : DeltaEntry :=
  { code := "poly", map := none, name := p, source := "", path := p }

/-- The preamble `getPrepend` computes under `cfg9`: the platform-selected
polyfill (id 5) comes before the configured `polyfillModuleNames` one (id 4). -/
def pre9 : DeltaEntries :=
  [(5, some (polyEntry "/poly-p.js")), (4, some (polyEntry "/poly-g.js"))]

/-- The id allocator for the postamble scenario. -/
def gid6 : String → Nat := fun p =>
  if p = "/A.js" then 11
  else if p = "/B.js" then 12
  else if p = "/E.js" then 13
  else 0

/-- The module named `A`. -/
def modA6 : Module :=
  { path := "/A.js", name := "A", isAsset := false, readResult := .ok mdW }

/-- The module named `B`. -/
def modB6 : Module :=
  { path := "/B.js", name := "B", isAsset := false, readResult := .ok mdW }

/-- The entry-point module `E`. -/
def modE6 : Module :=
  { path := "/E.js", name := "E", isAsset := false, readResult := .ok mdW }

/-- The environment for the postamble scenario. -/
def env6 : Env :=
  { envW with getModuleId := gid6, getModuleForPath := fun _ => modE6 }

/-- `runBeforeMainModule = ["A", "B"]`, entry file `/E.js`. -/
def opts6 : BundleOptions :=
  { optsW with runBeforeMainModule := ["A", "B"], entryFile := "/E.js" }

/-- A name→module lookup resolving both `A` and `B`. -/
def mbn6 : List (String × Module) := [("A", modA6), ("B", modB6)]

/-- A name→module lookup in which `A` is unresolved. -/
def mbn6' : List (String × Module) := [("B", modB6)]

/-- A state with one call awaiting its own build. -/
def s2w : LoopState :=
  { token := some 0, builds := [(0, BStatus.pending)], nextBuild := 1,
    calls := [(0, CallPc.awaitingOwn 0)], nextCall := 1, started := [(0, 0)] }

/-- A state in which call 1 arrived while call 0's build 0 was pending. -/
def s10w : LoopState :=
  { token := some 0, builds := [(0, BStatus.pending)], nextBuild := 1,
    calls := [(0, CallPc.awaitingOwn 0), (1, CallPc.waitingPrev 0)],
    nextCall := 2, started := [(0, 0)] }

/-! ## Association-list lemmas -/

@[simp]
theorem lookupA_setA_self {κ α : Type} [DecidableEq κ]
    (l : List (κ × α)) (k : κ) (v : α) : lookupA (setA l k v) k = some v := by
  induction l with
  | nil => simp [setA, lookupA]
  | cons hd tl ih =>
    by_cases h : hd.1 = k
    · simp [setA, lookupA, h]
    · simp [setA, lookupA, h, ih]

theorem lookupA_setA_ne {κ α : Type} [DecidableEq κ]
    (l : List (κ × α)) (k k' : κ) (v : α) (h : k' ≠ k) :
    lookupA (setA l k' v) k = lookupA l k := by
  induction l with
  | nil => simp [setA, lookupA, h]
  | cons hd tl ih =>
    by_cases hh : hd.1 = k'
    · simp [setA, lookupA, hh, h]
    · simp only [setA, if_neg hh, lookupA]
      by_cases hk : hd.1 = k
      · simp [lookupA, hk]
      · simp [lookupA, hk, ih]

theorem setA_append_fresh {κ α : Type} [DecidableEq κ]
    (l : List (κ × α)) (k : κ) (v : α) (h : ∀ p ∈ l, p.1 ≠ k) :
    setA l k v = l ++ [(k, v)] := by
  induction l with
  | nil => simp [setA]
  | cons hd tl ih =>
    have hhd : hd.1 ≠ k := h hd (by simp)
    simp only [setA, if_neg hhd, List.cons_append, List.cons.injEq, true_and]
    exact ih fun p hp => h p (by simp [hp])

theorem foldl_setA_fresh {κ α : Type} [DecidableEq κ]
    (l acc : List (κ × α)) (hnd : (l.map Prod.fst).Nodup)
    (hdisj : ∀ p ∈ acc, ∀ q ∈ l, p.1 ≠ q.1) :
    l.foldl (fun a p => setA a p.1 p.2) acc = acc ++ l := by
  induction l generalizing acc with
  | nil => simp
  | cons hd tl ih =>
    have hfresh : ∀ p ∈ acc, p.1 ≠ hd.1 := fun p hp => hdisj p hp hd (by simp)
    have hstep : setA acc hd.1 hd.2 = acc ++ [hd] :=
      setA_append_fresh acc hd.1 hd.2 hfresh
    have hnd' : (tl.map Prod.fst).Nodup := (List.nodup_cons.mp hnd).2
    have hhdtl : ∀ q ∈ tl, hd.1 ≠ q.1 := by
      intro q hq heq
      exact (List.nodup_cons.mp hnd).1 (heq ▸ List.mem_map_of_mem Prod.fst hq)
    have hdisj' : ∀ p ∈ acc ++ [hd], ∀ q ∈ tl, p.1 ≠ q.1 := by
      intro p hp q hq
      rcases List.mem_append.mp hp with hp | hp
      · exact hdisj p hp q (by simp [hq])
      · simp only [List.mem_singleton] at hp
        exact hp ▸ hhdtl q hq
    simp only [List.foldl_cons, hstep]
    rw [ih (acc ++ [hd]) hnd' hdisj']
    simp

/-- `new Map(pairs)` with pairwise distinct keys is the pair list itself. -/
theorem mkMap_nodup {κ α : Type} [DecidableEq κ]
    (l : List (κ × α)) (h : (l.map Prod.fst).Nodup) : mkMap l = l := by
  simpa [mkMap] using foldl_setA_fresh l [] h (by simp)

theorem lookupA_of_mem_nodup {κ α : Type} [DecidableEq κ]
    (l : List (κ × α)) (k : κ) (v : α)
    (hnd : (l.map Prod.fst).Nodup) (hmem : (k, v) ∈ l) :
    lookupA l k = some v := by
  induction l with
  | nil => cases hmem
  | cons hd tl ih =>
    rcases List.mem_cons.mp hmem with h | h
    · simp [lookupA, ← h]
    · have hk : hd.1 ≠ k := by
        intro heq
        exact (List.nodup_cons.mp hnd).1
          (heq ▸ List.mem_map_of_mem Prod.fst h)
      simp only [lookupA, if_neg hk]
      exact ih (List.nodup_cons.mp hnd).2 h

theorem lookupA_foldl_tombstone (gid : String → Nat) (deleted : List String)
    (acc : DeltaEntries) (k : Nat)
    (h : lookupA acc k = some none ∨ ∃ p ∈ deleted, gid p = k) :
    lookupA (deleted.foldl (fun a p => setA a (gid p) none) acc) k = some none := by
  induction deleted generalizing acc with
  | nil =>
    rcases h with h | ⟨p, hp, _⟩
    · simpa using h
    · cases hp
  | cons hd tl ih =>
    simp only [List.foldl_cons]
    apply ih
    by_cases hh : gid hd = k
    · left
      rw [← hh]
      exact lookupA_setA_self acc (gid hd) none
    · rcases h with h | ⟨p, hp, hpk⟩
      · left
        rw [lookupA_setA_ne acc k (gid hd) none hh]
        exact h
      · rcases List.mem_cons.mp hp with rfl | hptl
        · exact absurd hpk hh
        · exact Or.inr ⟨p, hptl, hpk⟩

theorem lookupA_mem {κ α : Type} [DecidableEq κ]
    (l : List (κ × α)) (k : κ) (v : α) (h : lookupA l k = some v) : (k, v) ∈ l := by
  induction l with
  | nil => cases h
  | cons hd tl ih =>
    by_cases hk : hd.1 = k
    · simp only [lookupA, if_pos hk, Option.some.injEq] at h
      exact List.mem_cons.mpr (Or.inl (by rw [← hk, ← h]))
    · simp only [lookupA, if_neg hk] at h
      exact List.mem_cons.mpr (Or.inr (ih h))

/-! ## Pipeline lemmas -/

theorem allE_ok_iff {α : Type} (f : Module → Except Nat α) (ms : List Module) :
    (∃ l, allE f ms = .ok l) ↔ ∀ m ∈ ms, ∃ r, f m = .ok r := by
  induction ms with
  | nil => simp [allE]
  | cons hd tl ih =>
    constructor
    · rintro ⟨l, hl⟩
      cases hf : f hd with
      | error e => simp [allE, hf] at hl
      | ok r =>
        cases ht : allE f tl with
        | error e => simp [allE, hf, ht] at hl
        | ok rs =>
          intro m hm
          rcases List.mem_cons.mp hm with rfl | hmem
          · exact ⟨r, hf⟩
          · exact (ih.mp ⟨rs, ht⟩) m hmem
    · intro h
      obtain ⟨r, hr⟩ := h hd (by simp)
      obtain ⟨rs, hrs⟩ := ih.mpr fun m hm => h m (by simp [hm])
      exact ⟨r :: rs, by simp [allE, hr, hrs]⟩

theorem allE_error_mem {α : Type} (f : Module → Except Nat α) (ms : List Module)
    (e : Nat) (h : allE f ms = .error e) : ∃ m ∈ ms, f m = .error e := by
  induction ms with
  | nil => simp [allE] at h
  | cons hd tl ih =>
    cases hf : f hd with
    | error e' =>
      simp [allE, hf] at h
      exact ⟨hd, by simp, by rw [hf, h]⟩
    | ok r =>
      cases ht : allE f tl with
      | error e' =>
        simp [allE, hf, ht] at h
        obtain ⟨m, hm, hfm⟩ := ih (by rw [ht, h])
        exact ⟨m, by simp [hm], hfm⟩
      | ok rs => simp [allE, hf, ht] at h

theorem allE_ok_map {α β : Type} (f : Module → Except Nat α) (ms : List Module)
    (l : List α) (g : α → β) (h₂ : Module → β)
    (hok : allE f ms = .ok l) (hpt : ∀ m r, f m = .ok r → g r = h₂ m) :
    l.map g = ms.map h₂ := by
  induction ms generalizing l with
  | nil =>
    simp [allE] at hok
    simp [← hok]
  | cons hd tl ih =>
    cases hf : f hd with
    | error e => simp [allE, hf] at hok
    | ok r =>
      cases ht : allE f tl with
      | error e => simp [allE, hf, ht] at hok
      | ok rs =>
        simp [allE, hf, ht] at hok
        simp [← hok, hpt hd r hf, ih rs ht]

theorem transformModule_ok_fst (env : Env) (opts : BundleOptions) (pairs : DepPairs)
    (m : Module) (r : Nat × Option DeltaEntry)
    (h : transformModule env opts pairs m = .ok r) :
    r.1 = env.getModuleId m.path := by
  unfold transformModule at h
  cases hmd : getMetadata env m with
  | error e => simp [hmd] at h
  | ok md =>
    rw [hmd] at h
    cases hw : wrapStep env opts m m.name md ((lookupA pairs m.path).getD []) with
    | error e => simp [hw] at h
    | ok w =>
      simp only [hw, Except.ok.injEq] at h
      rw [← h]

theorem getDeltaCore_ok_inv (env : Env) (cfg : Config) (opts : BundleOptions)
    (d : CalculatorDelta) (pairs : DepPairs) (mbn : List (String × Module))
    (inv : List (String × List String)) (resp : DeltaTransformResponse)
    (h : getDeltaCore env cfg opts d pairs mbn inv = .ok resp) :
    (∃ md, transformModules env opts pairs d.modified = .ok md ∧
        resp.delta =
          d.deleted.foldl (fun acc p => setA acc (env.getModuleId p) none) md) ∧
    (if d.reset then getPrepend env cfg opts pairs
      else .ok ([] : DeltaEntries)) = .ok resp.pre ∧
    resp.post = (if d.reset then getAppend env opts mbn else ([] : DeltaEntries)) ∧
    resp.inverseDependencies = getInverseDependencies env inv ∧
    resp.reset = d.reset := by
  unfold getDeltaCore at h
  cases htm : transformModules env opts pairs d.modified with
  | error e => simp [htm] at h
  | ok md =>
    rw [htm] at h
    cases hpre : (if d.reset then getPrepend env cfg opts pairs
        else .ok ([] : DeltaEntries)) with
    | error e => simp [hpre] at h
    | ok pre =>
      simp only [hpre, Except.ok.injEq] at h
      subst h
      exact ⟨⟨md, rfl, rfl⟩, rfl, rfl, rfl, rfl⟩

/-! ## Claims C3, C5, C8, C4 -/

/-- Claim C3: whenever `getDelta` returns a response and some module's path is
in both the modified and the deleted set of the diff, the delta mapping holds
a tombstone (`null`) at that module's id — tombstoning of deleted paths runs
after all modified-module transforms and overwrites any entry for that id. -/
theorem claim_C3_tombstone_overwrites (env : Env) (cfg : Config)
    (opts : BundleOptions) (d : CalculatorDelta) (pairs : DepPairs)
    (mbn : List (String × Module)) (inv : List (String × List String))
    (resp : DeltaTransformResponse) (m : Module)
    (h : getDeltaCore env cfg opts d pairs mbn inv = .ok resp)
    (_hm : m ∈ d.modified) (hdel : m.path ∈ d.deleted) :
    lookupA resp.delta (env.getModuleId m.path) = some none := by
  obtain ⟨⟨md, _, hdelta⟩, _⟩ :=
    getDeltaCore_ok_inv env cfg opts d pairs mbn inv resp h
  rw [hdelta]
  exact lookupA_foldl_tombstone env.getModuleId d.deleted md
    (env.getModuleId m.path) (Or.inr ⟨m.path, hdel, rfl⟩)

theorem claim_C3_tombstone_overwrites_witness :
    lookupA resp3.delta (envW.getModuleId "/a.js") = some none :=
  claim_C3_tombstone_overwrites envW cfgW optsW d3 [] [] [] resp3 modA
    (by decide) (by decide) (by decide)

/-- Claim C5: the response's `reset` flag is the diff's flag unchanged; when
`reset` is false the returned `pre` and `post` are empty, and when it is true
they are the preamble/postamble assembler's output (even for an empty modified
set, since the theorem quantifies over every diff). -/
theorem claim_C5_reset_gates_pre_post (env : Env) (cfg : Config)
    (opts : BundleOptions) (d : CalculatorDelta) (pairs : DepPairs)
    (mbn : List (String × Module)) (inv : List (String × List String))
    (resp : DeltaTransformResponse)
    (h : getDeltaCore env cfg opts d pairs mbn inv = .ok resp) :
    resp.reset = d.reset ∧
    (d.reset = false → resp.pre = [] ∧ resp.post = []) ∧
    (d.reset = true → getPrepend env cfg opts pairs = .ok resp.pre ∧
      resp.post = getAppend env opts mbn) := by
  obtain ⟨_, hpre, hpost, _, hreset⟩ :=
    getDeltaCore_ok_inv env cfg opts d pairs mbn inv resp h
  refine ⟨hreset, ?_, ?_⟩
  · intro hr
    rw [hr] at hpre hpost
    simp only [if_neg Bool.false_ne_true] at hpre hpost
    simp only [Except.ok.injEq] at hpre
    exact ⟨hpre.symm, hpost⟩
  · intro hr
    rw [hr] at hpre hpost
    simp only [if_pos rfl] at hpre hpost
    exact ⟨hpre, hpost⟩

theorem claim_C5_reset_gates_pre_post_witness :
    getPrepend envW cfgW optsW [] = .ok resp5.pre ∧
    resp5.post = getAppend envW optsW [] :=
  (claim_C5_reset_gates_pre_post envW cfgW optsW d5 [] [] [] resp5
    (by decide)).2.2 rfl

/-- Claim C8: the inverse-dependency translation is a pure function taking
each `(path, dependent paths)` entry to the entry keyed by the decimal string
of `id(path)` whose value is the ids of the dependent paths in iteration
order, with no deduplication or sorting; on the singleton map the translation
equals directly computing the id-keyed entry. -/
theorem claim_C8_inverse_dependency_translation (env : Env)
    (inv : List (String × List String)) (p : String) (ds : List String) :
    getInverseDependencies env [(p, ds)] =
      [(toString (env.getModuleId p), ds.map env.getModuleId)] ∧
    ((inv.map (fun kv => toString (env.getModuleId kv.1))).Nodup →
      (p, ds) ∈ inv →
      lookupA (getInverseDependencies env inv) (toString (env.getModuleId p)) =
        some (ds.map env.getModuleId)) := by
  have hfold : ∀ l : List (String × List String),
      getInverseDependencies env l =
        mkMap (l.map (fun kv =>
          (toString (env.getModuleId kv.1), kv.2.map env.getModuleId))) := by
    intro l
    simp [getInverseDependencies, mkMap, List.foldl_map]
  constructor
  · simp [hfold, mkMap, setA]
  · intro hnd hmem
    rw [hfold]
    have hkeys : (((inv.map (fun kv =>
        (toString (env.getModuleId kv.1), kv.2.map env.getModuleId))).map
          Prod.fst)).Nodup := by
      simpa [List.map_map, Function.comp] using hnd
    rw [mkMap_nodup _ hkeys]
    exact lookupA_of_mem_nodup _ _ _ hkeys
      (List.mem_map_of_mem _ hmem)

theorem claim_C8_inverse_dependency_translation_witness :
    getInverseDependencies envW [("/a.js", ["/b.js"])] =
      [(toString (envW.getModuleId "/a.js"), ["/b.js"].map envW.getModuleId)] ∧
    lookupA (getInverseDependencies envW [("/a.js", ["/b.js"])])
        (toString (envW.getModuleId "/a.js")) =
      some (["/b.js"].map envW.getModuleId) :=
  ⟨(claim_C8_inverse_dependency_translation envW [("/a.js", ["/b.js"])]
      "/a.js" ["/b.js"]).1,
   (claim_C8_inverse_dependency_translation envW [("/a.js", ["/b.js"])]
      "/a.js" ["/b.js"]).2 (by decide) (by decide)⟩

/-- Claim C4: every `DeltaEntry` the transform pipeline produces carries as
`map` exactly the raw-mapping array kept by the `Array.isArray` filter: when
the wrap step's map is the raw-mapping array it is passed through, and any
other shape — in particular a string-encoded standard source map — is coerced
to "no map". -/
theorem claim_C4_map_filtered (env : Env) (opts : BundleOptions)
    (pairs : DepPairs) (m : Module) (k : Nat) (e : DeltaEntry)
    (h : transformModule env opts pairs m = .ok (k, some e)) :
    ∃ md w, getMetadata env m = .ok md ∧
      wrapStep env opts m m.name md ((lookupA pairs m.path).getD []) = .ok w ∧
      e.map = rawMapFilter w.map ∧
      (∀ l, w.map = some (JsMap.arr l) → e.map = some l) ∧
      (∀ s, w.map = some (JsMap.std s) → e.map = none) ∧
      (w.map = none → e.map = none) := by
  unfold transformModule at h
  cases hmd : getMetadata env m with
  | error e' => simp [hmd] at h
  | ok md =>
    rw [hmd] at h
    cases hw : wrapStep env opts m m.name md ((lookupA pairs m.path).getD []) with
    | error e' => simp [hw] at h
    | ok w =>
      simp only [hw, Except.ok.injEq, Prod.mk.injEq, Option.some.injEq] at h
      obtain ⟨-, he⟩ := h
      refine ⟨md, w, rfl, hw, ?_, ?_, ?_, ?_⟩
      · rw [← he]
      · intro l hl
        rw [← he, hl]
        rfl
      · intro s hs
        rw [← he, hs]
        rfl
      · intro hn
        rw [← he, hn]
        rfl

theorem claim_C4_map_filtered_witness :
    ∃ md w, getMetadata env4 modA = .ok md ∧
      wrapStep env4 opts4 modA modA.name md ((lookupA [] modA.path).getD []) =
        .ok w ∧
      entry4.map = rawMapFilter w.map ∧
      (∀ l, w.map = some (JsMap.arr l) → entry4.map = some l) ∧
      (∀ s, w.map = some (JsMap.std s) → entry4.map = none) ∧
      (w.map = none → entry4.map = none) :=
  claim_C4_map_filtered env4 opts4 [] modA 1 entry4 (by decide)

/-! ## Claims C7, C9, C6 -/

/-- Claim C7: the per-module transforms join all-or-nothing — the batch
succeeds exactly when every modified module's read/transform/wrap step
succeeds, and when the step fails for any module, that module's failure is the
error the whole delta computation rejects with; no partial delta mapping is
ever returned and per-module failures are never swallowed. -/
theorem claim_C7_all_or_nothing (env : Env) (cfg : Config) (opts : BundleOptions)
    (d : CalculatorDelta) (pairs : DepPairs) (mbn : List (String × Module))
    (inv : List (String × List String)) :
    ((∃ ds, transformModules env opts pairs d.modified = .ok ds) ↔
      ∀ m ∈ d.modified, ∃ r, transformModule env opts pairs m = .ok r) ∧
    (∀ ε, transformModules env opts pairs d.modified = .error ε →
      (∃ m ∈ d.modified, transformModule env opts pairs m = .error ε) ∧
      getDeltaCore env cfg opts d pairs mbn inv = .error ε) := by
  constructor
  · constructor
    · rintro ⟨ds, hds⟩
      unfold transformModules at hds
      cases hall : allE (transformModule env opts pairs) d.modified with
      | error e => simp [hall] at hds
      | ok l => exact (allE_ok_iff _ _).mp ⟨l, hall⟩
    · intro h
      obtain ⟨l, hl⟩ := (allE_ok_iff _ _).mpr h
      exact ⟨mkMap l, by simp [transformModules, hl]⟩
  · intro ε hε
    have hall' : allE (transformModule env opts pairs) d.modified = .error ε := by
      have h₂ := hε
      unfold transformModules at h₂
      cases hall : allE (transformModule env opts pairs) d.modified with
      | error e =>
        simp [hall] at h₂
        rw [h₂]
      | ok l => simp [hall] at h₂
    exact ⟨allE_error_mem _ _ _ hall', by simp [getDeltaCore, hε]⟩

theorem claim_C7_all_or_nothing_witness :
    (∃ m ∈ d7.modified, transformModule envW optsW [] m = .error 42) ∧
    getDeltaCore envW cfgW optsW d7 [] [] [] = .error 42 :=
  (claim_C7_all_or_nothing envW cfgW optsW d7 [] [] []).2 42 (by decide)

/-- Claim C9 counterexample: with one platform-selected polyfill (id 5) and
one configured `polyfillModuleNames` polyfill (id 4), the source's preamble
lists id 5 before id 4 — platform-specific first — refuting the claimed
"global polyfill list first, then the platform-specific list" order, which
`prependModulesSpecOrder` spells out. -/
theorem claim_C9_counterexample :
    getPrepend envW cfg9 optsW [] = .ok pre9 ∧
    pre9.map Prod.fst =
      (prependModules envW cfg9 optsW).map (fun m => envW.getModuleId m.path) ∧
    pre9.map Prod.fst ≠
      (prependModulesSpecOrder envW cfg9 optsW).map
        (fun m => envW.getModuleId m.path) :=
  ⟨by decide, by decide, by decide⟩

/-- Claim C9 (amended): on every reset the preamble is the module-system
bootstrap scripts selected by the `dev` flag, followed by one synthetic
polyfill module per configured name — the platform-selected
`getPolyfills({platform})` list first, then the configured
`polyfillModuleNames` list — each created through the dependency graph's
polyfill constructor, and all of them produced by the same module transform
pipeline as ordinary modules. -/
theorem claim_C9_prepend_structure (env : Env) (cfg : Config)
    (opts : BundleOptions) (pairs : DepPairs) (pre : DeltaEntries)
    (h : getPrepend env cfg opts pairs = .ok pre)
    (hnd : ((prependModules env cfg opts).map
      (fun m => env.getModuleId m.path)).Nodup) :
    getPrepend env cfg opts pairs =
      transformModules env opts pairs
        (env.getModuleSystemDependencies opts.dev ++
          (cfg.getPolyfills opts.platform ++ cfg.polyfillModuleNames).map
            (fun n => env.createPolyfill n)) ∧
    pre.map Prod.fst =
      (prependModules env cfg opts).map (fun m => env.getModuleId m.path) := by
  refine ⟨rfl, ?_⟩
  have h' := h
  unfold getPrepend transformModules at h'
  cases hall : allE (transformModule env opts pairs) (prependModules env cfg opts) with
  | error e => simp [hall] at h'
  | ok l =>
    simp only [hall, Except.ok.injEq] at h'
    have hkeys : l.map Prod.fst =
        (prependModules env cfg opts).map (fun m => env.getModuleId m.path) :=
      allE_ok_map _ _ _ _ _ hall
        (fun m r hr => transformModule_ok_fst env opts pairs m r hr)
    have hmk : mkMap l = l := mkMap_nodup l (by rw [hkeys]; exact hnd)
    rw [← h', hmk, hkeys]

theorem claim_C9_prepend_structure_witness :
    getPrepend envW cfg9 optsW [] =
      transformModules envW optsW []
        (envW.getModuleSystemDependencies optsW.dev ++
          (cfg9.getPolyfills optsW.platform ++ cfg9.polyfillModuleNames).map
            (fun n => envW.createPolyfill n)) ∧
    pre9.map Prod.fst =
      (prependModules envW cfg9 optsW).map (fun m => envW.getModuleId m.path) :=
  claim_C9_prepend_structure envW cfg9 optsW [] pre9 (by decide) (by decide)

/-- Claim C6 counterexample: at id 11 the synthesized bootstrap entry's code
is `;require(11);` — with the defensive leading semicolon the source writes —
and not `require(11);` as the claim states. -/
theorem claim_C6_counterexample :
    lookupA (getAppend env6 opts6 mbn6) 11 = some (some (bootstrapEntry 11)) ∧
    (bootstrapEntry 11).code = ";require(11);" ∧
    (bootstrapEntry 11).code ≠ "require(11);" :=
  ⟨by decide, by decide, by decide⟩

/-- Claim C6 (amended): with `runBeforeMainModule = ["A", "B"]` and the entry
file resolving to module `E`, the postamble's insertion order is id(A), id(B),
id(E); names not found in the name→module lookup are skipped; each resolved
module's entry has code `;require(<id>);` (with the source's defensive leading
semicolon), name `require-<id>`, path `<name>.js` and no map, and the
entry-point module is always the last required module. -/
theorem claim_C6_append_order (env : Env) (opts : BundleOptions)
    (mbn mbn' : List (String × Module)) (mA mB mE : Module) (a b e : Nat)
    (hrb : opts.runBeforeMainModule = ["A", "B"])
    (hA : lookupA mbn "A" = some mA) (hB : lookupA mbn "B" = some mB)
    (hE : env.getModuleForPath (env.getAbsolutePath opts.entryFile) = mE)
    (ha : env.getModuleId mA.path = a) (hb : env.getModuleId mB.path = b)
    (he : env.getModuleId mE.path = e)
    (hab : a ≠ b) (hae : a ≠ e) (hbe : b ≠ e)
    (hA' : lookupA mbn' "A" = none) (hB' : lookupA mbn' "B" = some mB) :
    getAppend env opts mbn =
      [(a, some (bootstrapEntry a)), (b, some (bootstrapEntry b)),
        (e, some (bootstrapEntry e))] ∧
    getAppend env opts mbn' =
      [(b, some (bootstrapEntry b)), (e, some (bootstrapEntry e))] ∧
    (bootstrapEntry a).code = ";require(" ++ toString a ++ ");" ∧
    (bootstrapEntry a).name = "require-" ++ toString a ∧
    (bootstrapEntry a).path = ("require-" ++ toString a) ++ ".js" ∧
    (bootstrapEntry a).map = none := by
  refine ⟨?_, ?_, rfl, rfl, rfl, rfl⟩
  · simp [getAppend, hrb, hE, hA, hB, ha, hb, he, mkMap, setA, hab, hae, hbe]
  · simp [getAppend, hrb, hE, hA', hB', hb, he, mkMap, setA, hbe]

theorem claim_C6_append_order_witness :
    getAppend env6 opts6 mbn6 =
      [(11, some (bootstrapEntry 11)), (12, some (bootstrapEntry 12)),
        (13, some (bootstrapEntry 13))] ∧
    getAppend env6 opts6 mbn6' =
      [(12, some (bootstrapEntry 12)), (13, some (bootstrapEntry 13))] ∧
    (bootstrapEntry 11).code = ";require(" ++ toString 11 ++ ");" ∧
    (bootstrapEntry 11).name = "require-" ++ toString 11 ∧
    (bootstrapEntry 11).path = ("require-" ++ toString 11) ++ ".js" ∧
    (bootstrapEntry 11).map = none :=
  claim_C6_append_order env6 opts6 mbn6 mbn6' modA6 modB6 modE6 11 12 13
    (by decide) (by decide) (by decide) (by decide) (by decide) (by decide)
    (by decide) (by decide) (by decide) (by decide) (by decide) (by decide)

/-! ## Event-loop lemmas -/

theorem resume_rejected_preserves (s : LoopState) (c e : Nat) :
    (resume (.rejected e) s c).started = s.started ∧
    (resume (.rejected e) s c).nextBuild = s.nextBuild ∧
    (resume (.rejected e) s c).builds = s.builds := by
  unfold resume
  cases h : lookupA s.calls c with
  | none => exact ⟨rfl, rfl, rfl⟩
  | some pc => cases pc <;> simp

theorem foldl_resume_rejected_preserves (ws : List Nat) (s : LoopState) (e : Nat) :
    ((ws.foldl (resume (.rejected e)) s).started = s.started) ∧
    ((ws.foldl (resume (.rejected e)) s).nextBuild = s.nextBuild) := by
  induction ws generalizing s with
  | nil => exact ⟨rfl, rfl⟩
  | cons hd tl ih =>
    simp only [List.foldl_cons]
    obtain ⟨h₁, h₂⟩ := ih (resume (.rejected e) s hd)
    obtain ⟨g₁, g₂, -⟩ := resume_rejected_preserves s hd e
    exact ⟨h₁.trans g₁, h₂.trans g₂⟩

theorem resume_calls_other (o : Outcome) (s : LoopState) (c c' : Nat)
    (h : c' ≠ c) : lookupA (resume o s c').calls c = lookupA s.calls c := by
  unfold resume newBuild
  split <;> simp [lookupA_setA_ne _ c c' _ h]

theorem foldl_resume_calls_other (o : Outcome) (ws : List Nat) (s : LoopState)
    (c : Nat) (h : c ∉ ws) :
    lookupA ((ws.foldl (resume o)) s).calls c = lookupA s.calls c := by
  induction ws generalizing s with
  | nil => rfl
  | cons hd tl ih =>
    simp only [List.foldl_cons]
    rw [ih _ fun hc => h (List.mem_cons.mpr (Or.inr hc)),
      resume_calls_other o s c hd fun heq => h (heq ▸ List.mem_cons_self hd tl)]

theorem foldl_resume_rejected_throws (e b : Nat) (ws : List Nat) (s : LoopState)
    (c : Nat) (hnd : ws.Nodup) (hmem : c ∈ ws)
    (hc : lookupA s.calls c = some (.waitingPrev b)) :
    lookupA ((ws.foldl (resume (.rejected e))) s).calls c = some (.threw e) := by
  induction ws generalizing s with
  | nil => cases hmem
  | cons hd tl ih =>
    simp only [List.foldl_cons]
    rcases List.mem_cons.mp hmem with rfl | htl
    · have hres : lookupA (resume (.rejected e) s c).calls c = some (.threw e) := by
        unfold resume
        rw [hc]
        simp
      rw [foldl_resume_calls_other _ tl _ c (List.nodup_cons.mp hnd).1, hres]
    · have hne : hd ≠ c := fun heq => (List.nodup_cons.mp hnd).1 (heq ▸ htl)
      exact ih (resume (.rejected e) s hd) (List.nodup_cons.mp hnd).2 htl
        ((resume_calls_other _ s c hd hne).trans hc)

theorem waitersOf_nodup (s : LoopState) (b : Nat)
    (hnd : (s.calls.map Prod.fst).Nodup) : (waitersOf s b).Nodup := by
  unfold waitersOf
  apply List.Nodup.append
  · exact ((List.filter_sublist s.calls).map Prod.fst).nodup hnd
  · exact ((List.filter_sublist s.calls).map Prod.fst).nodup hnd
  · intro a ha₁ ha₂
    obtain ⟨p, hp, hpa⟩ := List.mem_map.mp ha₁
    obtain ⟨q, hq, hqa⟩ := List.mem_map.mp ha₂
    simp only [List.mem_filter, decide_eq_true_eq] at hp hq
    have h₁ : lookupA s.calls a = some p.2 :=
      lookupA_of_mem_nodup _ _ _ hnd (by rw [← hpa]; exact hp.1)
    have h₂ : lookupA s.calls a = some q.2 :=
      lookupA_of_mem_nodup _ _ _ hnd (by rw [← hqa]; exact hq.1)
    rw [h₁, hp.2] at h₂
    rw [hq.2] at h₂
    cases h₂

/-! ## Claims C2, C10, C1 -/

/-- Claim C2: the resumption that completes a `getDelta()` call — the step
that runs the `finally` of source lines 139–143 and then returns or rethrows —
always clears `_currentBuildPromise` back to empty in that same step, whether
the call's own build resolved or rejected, so a failed build never leaves a
pending token behind. -/
theorem claim_C2_token_cleared (s : LoopState) (c b : Nat) (o : Outcome)
    (h : lookupA s.calls c = some (.awaitingOwn b)) :
    (resume o s c).token = none ∧
    (o = .resolved → lookupA (resume o s c).calls c = some (.returned b)) ∧
    (∀ e, o = .rejected e → lookupA (resume o s c).calls c = some (.threw e)) := by
  cases o with
  | resolved =>
    unfold resume
    rw [h]
    simp
  | rejected e =>
    unfold resume
    rw [h]
    simp

theorem claim_C2_token_cleared_witness :
    (resume Outcome.resolved s2w 0).token = none ∧
    lookupA (resume Outcome.resolved s2w 0).calls 0 = some (CallPc.returned 0) ∧
    (resume (Outcome.rejected 9) s2w 0).token = none :=
  ⟨(claim_C2_token_cleared s2w 0 0 Outcome.resolved (by decide)).1,
    (claim_C2_token_cleared s2w 0 0 Outcome.resolved (by decide)).2.1 rfl,
    (claim_C2_token_cleared s2w 0 0 (Outcome.rejected 9) (by decide)).1⟩

/-- Claim C10: a `getDelta()` call suspended at line 132 on the build it found
in `_currentBuildPromise` at arrival rejects with that build's error when the
build rejects, without ever starting a computation of its own: after the
settle event the call has thrown that error and no new build was allocated by
anyone (`started` and `nextBuild` are untouched). -/
theorem claim_C10_pending_rejection_propagates (s : LoopState) (c b e : Nat)
    (hnd : (s.calls.map Prod.fst).Nodup)
    (hc : lookupA s.calls c = some (.waitingPrev b))
    (hb : lookupA s.builds b = some .pending) :
    lookupA (stepEv s (.settle b (.rejected e))).calls c = some (.threw e) ∧
    (stepEv s (.settle b (.rejected e))).started = s.started ∧
    (stepEv s (.settle b (.rejected e))).nextBuild = s.nextBuild := by
  simp only [stepEv]
  rw [hb]
  have hmemw : c ∈
      waitersOf { s with builds := setA s.builds b (.settled (.rejected e)) } b := by
    unfold waitersOf
    apply List.mem_append.mpr
    right
    exact List.mem_map_of_mem Prod.fst
      (List.mem_filter.mpr ⟨lookupA_mem _ _ _ hc, by simp⟩)
  have hwnd : (waitersOf
      { s with builds := setA s.builds b (.settled (.rejected e)) } b).Nodup :=
    waitersOf_nodup _ b hnd
  refine ⟨?_, ?_, ?_⟩
  · exact foldl_resume_rejected_throws e b _ _ c hwnd hmemw hc
  · exact (foldl_resume_rejected_preserves _ _ e).1
  · exact (foldl_resume_rejected_preserves _ _ e).2

theorem claim_C10_pending_rejection_propagates_witness :
    lookupA (stepEv s10w (Ev.settle 0 (Outcome.rejected 7))).calls 1 =
      some (CallPc.threw 7) ∧
    (stepEv s10w (Ev.settle 0 (Outcome.rejected 7))).started = s10w.started ∧
    (stepEv s10w (Ev.settle 0 (Outcome.rejected 7))).nextBuild = s10w.nextBuild :=
  claim_C10_pending_rejection_propagates s10w 1 0 7 (by decide) (by decide)
    (by decide)

/-- Claim C1 (refutation exhibit): after three `getDelta()` calls — the second
and third arriving while the first call's build 0 is pending — and the
settlement of build 0, the model reaches a state in which builds 1 and 2 are
in flight simultaneously, started by calls 1 and 2 respectively (call 0 has
already returned).  The entry check of line 131 is not re-evaluated after the
line-132 `await`, so both waiting calls start their computations in the same
microtask flush, contradicting "at most one computation executes at a time,
strictly sequential, never concurrent". -/
theorem claim_C1_concurrent_builds :
    pendingBuilds (runEvents raceEvents) = [1, 2] ∧
    lookupA (runEvents raceEvents).calls 0 = some (CallPc.returned 0) ∧
    lookupA (runEvents raceEvents).calls 1 = some (CallPc.awaitingOwn 1) ∧
    lookupA (runEvents raceEvents).calls 2 = some (CallPc.awaitingOwn 2) ∧
    lookupA (runEvents raceEvents).started 1 = some 1 ∧
    lookupA (runEvents raceEvents).started 2 = some 2 := by
  decide

end Metro
